import Mathlib

/-!
Shallow embedding of `lib/datasource.js` (killmenot/loopback-datasource-juggler):
the DataSource runtime — connection lifecycle, model registry, discovery
delegation, foreign keys, and the transaction sandbox.

Modelling conventions:
* JS values observed by the claims are `JSVal`; plain JS objects holding
  type-level `properties` / `settings` are mutable, so they live in an
  explicit `Heap` and a `TypeDescriptor` stores references (`Nat` indices)
  into it — this makes the source's shallow-copy aliasing visible.
* A thrown JS exception is `Except.error`; reading a member of `undefined`
  (e.g. `this.adapter.freezeSchema` with no adapter) is `JSError.typeError`.
* Callbacks and adapter calls are recorded as an `Event` trace; adapter
  completions are modelled as invoked synchronously with the behaviour
  recorded in the `Adapter` value.
* `DataSource.prototype` methods take the receiver (`this`) explicitly; the
  same structure serves for the transaction context (the source duck-types
  the two, sharing e.g. `connect`).
-/

/-- JS values, as far as the claims observe them. `ctx i` stands for a
reference to a DataSource/transaction context object (used as the value of a
model's `schema` field). -/
inductive JSVal where
  | undefined
  | null
  | bool (b : Bool)
  | num (n : Int)
  | str (s : String)
  | ctx (id : Nat)
deriving DecidableEq, Repr

/-- JS truthiness (NaN not modelled; `ctx` is an object, hence truthy). -/
def jsTruthy : JSVal → Bool
  | .undefined => false
  | .null => false
  | .bool b => b
  | .num n => n != 0
  | .str s => s != ""
  | .ctx _ => true

/-- JS property-key coercion (`obj[v]` coerces `v` to a string key). -/
def jsToKey : JSVal → String
  | .str s => s
  | .undefined => "undefined"
  | .null => "null"
  | .bool b => if b then "true" else "false"
  | .num n => toString n
  | .ctx _ => "[object Object]"

/-- First-match association lookup, the observable behaviour of reading a
key from a JS object. -/
def lookupA {α : Type} (k : String) : List (String × α) → Option α
  | [] => none
  | (k', v) :: rest => if k' = k then some v else lookupA k rest

/-- Update-or-append, the observable behaviour of `obj[k] = v` on a JS
object (an existing key keeps its position; a new key is appended). -/
def setA {α : Type} (k : String) (v : α) : List (String × α) → List (String × α)
  | [] => [(k, v)]
  | (k', v') :: rest => if k' = k then (k, v) :: rest else (k', v') :: setA k v rest

@[simp] theorem lookupA_nil {α : Type} (k : String) : lookupA (α := α) k [] = none := rfl

@[simp] theorem lookupA_cons {α : Type} (k k' : String) (v : α) (l : List (String × α)) :
    lookupA k ((k', v) :: l) = if k' = k then some v else lookupA k l := rfl

@[simp] theorem lookupA_setA_self {α : Type} (k : String) (v : α) (l : List (String × α)) :
    lookupA k (setA k v l) = some v := by
  induction l with
  | nil => simp [setA]
  | cons p rest ih =>
    obtain ⟨k', v'⟩ := p
    by_cases h : k' = k <;> simp [setA, h, ih]

theorem lookupA_setA_ne {α : Type} (k k₀ : String) (v : α) (l : List (String × α))
    (h : k₀ ≠ k) : lookupA k (setA k₀ v l) = lookupA k l := by
  induction l with
  | nil => simp [setA, h]
  | cons p rest ih =>
    obtain ⟨k', v'⟩ := p
    by_cases h' : k' = k₀
    · subst h'; simp [setA, h]
    · simp [setA, h', ih]

theorem lookupA_isSome_iff_mem_keys {α : Type} (k : String) (l : List (String × α)) :
    (lookupA k l).isSome ↔ k ∈ l.map Prod.fst := by
  induction l with
  | nil => simp
  | cons p rest ih =>
    obtain ⟨k', v'⟩ := p
    by_cases h : k' = k
    · subst h; simp
    · simp [h, ih, Ne.symm h]

/-- Read a field of a JS object (absent fields read as `undefined`). -/
def jsGet (o : List (String × JSVal)) (k : String) : JSVal :=
  (lookupA k o).getD .undefined

/-- Type tags carried by compiled field descriptors; `Number` is the
fallback foreign-key type, other tags are opaque here. -/
inductive TypeTag where
  | number
  | custom (s : String)
deriving DecidableEq, Repr

/-- A compiled field descriptor (`{type: ...}` objects in the source). -/
structure FieldDescriptor where
  type : TypeTag
deriving DecidableEq, Repr

/-- A type's `properties` object: field name → field descriptor. -/
abbrev PropsObj := List (String × FieldDescriptor)

/-- A type's `settings` object: key → JS value (e.g. `table`). -/
abbrev SettingsObj := List (String × JSVal)

/-- The mutable store for `properties` / `settings` objects. Two descriptors
holding the same index alias the same object, exactly as two JS references
to one object do. -/
structure Heap where
  propsCells : List PropsObj
  settingsCells : List SettingsObj
deriving DecidableEq, Repr

def Heap.empty : Heap := ⟨[], []⟩

def Heap.allocProps (h : Heap) (o : PropsObj) : Heap × Nat :=
  (⟨h.propsCells ++ [o], h.settingsCells⟩, h.propsCells.length)

def Heap.allocSettings (h : Heap) (o : SettingsObj) : Heap × Nat :=
  (⟨h.propsCells, h.settingsCells ++ [o]⟩, h.settingsCells.length)

def Heap.getProps (h : Heap) (r : Nat) : PropsObj := (h.propsCells.get? r).getD []

def Heap.setProps (h : Heap) (r : Nat) (o : PropsObj) : Heap :=
  ⟨h.propsCells.set r o, h.settingsCells⟩

def Heap.getSettings (h : Heap) (r : Nat) : SettingsObj := (h.settingsCells.get? r).getD []

def Heap.setSettings (h : Heap) (r : Nat) (o : SettingsObj) : Heap :=
  ⟨h.propsCells, h.settingsCells.set r o⟩

theorem list_getD_set_self {α : Type} (l : List α) (i : Nat) (a d : α) (h : i < l.length) :
    ((l.set i a).get? i).getD d = a := by
  induction l generalizing i with
  | nil => simp at h
  | cons x xs ih =>
    cases i with
    | zero => rfl
    | succ n =>
      simp only [List.set, List.get?]
      exact ih n (by simpa using h)

theorem Heap.getProps_setProps_self (h : Heap) (r : Nat) (o : PropsObj)
    (hr : r < h.propsCells.length) : (h.setProps r o).getProps r = o :=
  list_getD_set_self _ _ _ _ hr

theorem Heap.getSettings_setSettings_self (h : Heap) (r : Nat) (o : SettingsObj)
    (hr : r < h.settingsCells.length) : (h.setSettings r o).getSettings r = o :=
  list_getD_set_self _ _ _ _ hr

/-- An entry of `definitions`: `{properties: ..., settings: ...}` holding
references to the two objects. -/
structure TypeDescriptor where
  propsRef : Nat
  settingsRef : Nat
deriving DecidableEq, Repr

/-- A JS property descriptor's attributes plus its value, as set by
`Object.defineProperty` or plain assignment. -/
structure PropAttr where
  writable : Bool
  enumerable : Bool
  configurable : Bool
  value : JSVal
deriving DecidableEq, Repr

/-- Source `hiddenProperty(where, property, value)`: a
non-writable, non-enumerable, non-configurable property. -/
def hiddenProperty (v : JSVal) : PropAttr :=
  { writable := false, enumerable := false, configurable := false, value := v }

/-- A constructible model class, observed through its own JS properties
(the prototype chain and the mixed-in data-access behaviour set are
external and not observed by the claims). -/
structure ModelClass where
  props : List (String × PropAttr)
deriving DecidableEq, Repr

/-- Reading `M.k` (absent own property reads as `undefined`). -/
def ModelClass.getProp (m : ModelClass) (k : String) : JSVal :=
  match lookupA k m.props with
  | some a => a.value
  | none => .undefined

/-- Sloppy-mode JS assignment `M.k = v`: silently a no-op on a
non-writable property, creates an ordinary data property otherwise. -/
def ModelClass.jsAssign (m : ModelClass) (k : String) (v : JSVal) : ModelClass :=
  match lookupA k m.props with
  | some a =>
    if a.writable then { props := setA k { a with value := v } m.props } else m
  | none =>
    { props := setA k { writable := true, enumerable := true, configurable := true, value := v } m.props }

/-- Generic property enumeration (`for..in` / `Object.keys`): only
enumerable properties appear. -/
def ModelClass.enumKeys (m : ModelClass) : List String :=
  (m.props.filter fun p => p.2.enumerable).map Prod.fst

instance exceptDecEq {ε α : Type} [DecidableEq ε] [DecidableEq α] :
    DecidableEq (Except ε α) := fun x y =>
  match x, y with
  | .error e, .error e' =>
    if h : e = e' then .isTrue (by rw [h])
    else .isFalse (by intro hc; injection hc with h'; exact h h')
  | .error _, .ok _ => .isFalse (by intro hc; exact Except.noConfusion hc)
  | .ok _, .error _ => .isFalse (by intro hc; exact Except.noConfusion hc)
  | .ok a, .ok a' =>
    if h : a = a' then .isTrue (by rw [h])
    else .isFalse (by intro hc; injection hc with h'; exact h h')

/-- Behaviour of an adapter's optional `defineForeignKey` capability:
its declared arity (the source switches on 3 vs 4) and what it reports to
the completion — an error, or a resolved key type. -/
structure FkCap where
  arity : Nat
  result : Except String TypeTag
deriving DecidableEq, Repr

/-- The adapter's Capability Contract, reduced to what the claims observe:
which optional operations are present, and the one-shot behaviour of
`connect` / `defineForeignKey` completions. -/
structure Adapter where
  hasConnect : Bool
  connectErr : Option String
  hasFreezeSchema : Bool
  hasAutomigrate : Bool
  hasAutoupdate : Bool
  hasIsActual : Bool
  hasDiscoverModels : Bool
  hasDiscoverModelProperties : Bool
  hasDiscoverPrimaryKeys : Bool
  hasDiscoverForeignKeys : Bool
  fkCap : Option FkCap
  hasTransaction : Bool
deriving DecidableEq, Repr

/-- Observable events: adapter calls, callback invocations, emits. -/
inductive Event where
  | freezeSchema
  | adapterOp (name : String) (args : List JSVal)
  | cb (args : List JSVal)
  | cbNextTick (args : List JSVal)
  | emit (name : String)
  | adapterDefine (className : String)
  | fkResolve (args : List String)
  | registerProperty (className key : String)
deriving DecidableEq, Repr

/-- The DataSource state (also the shape of a transaction context: the
source builds the latter as a plain object with the same fields and reuses
the DataSource's methods on it). -/
structure DataSource where
  name : Option String
  settings : JSVal
  connected : Bool
  connecting : Bool
  adapter : Option Adapter
  isTransaction : Bool
  models : List (String × ModelClass)
  definitions : List (String × TypeDescriptor)
deriving DecidableEq, Repr

/-- Source `DataSource.prototype.setup`, after adapter resolution. Resolution
itself (filesystem/`require` lookups) is environmental, so the resolved
adapter (or `none` when no adapter could be resolved — the warning path)
is a parameter. With an adapter, the required `initialize(this, done)` is
modelled as completing synchronously: per the Capability Contract it sets
`this.adapter`, and the completion sets `connected = true` and emits
`connected`. -/
def DataSource.setup (name : Option String) (settings : JSVal)
    (resolved : Option Adapter) : DataSource :=
  match resolved with
  | none =>
    { name := name, settings := settings, connected := false, connecting := false,
      adapter := none, isTransaction := false, models := [], definitions := [] }
  | some a =>
    { name := name, settings := settings, connected := true, connecting := false,
      adapter := some a, isTransaction := false, models := [], definitions := [] }

/-- JS exceptions: a TypeError from touching a member of `undefined`, or a
value thrown by `throw`. -/
inductive JSError where
  | typeError
  | thrown (msg : String)
deriving DecidableEq, Repr

/-- Outcome of `connect(cb)`: the updated receiver, the event trace, and a
synchronously thrown error if any. -/
structure ConnectOutcome where
  ds : DataSource
  events : List Event
  thrown : Option JSError
deriving DecidableEq, Repr

/-- Source `schema.connect` as installed by `setup`: sets `connecting = true`
first; if the adapter has a `connect` operation, runs it (its completion,
on success, sets `connected`, clears `connecting`, emits `connected`, then
calls `cb(err)`; on failure only `cb(err)` runs); otherwise schedules `cb`
on the next tick via `process.nextTick`. Reading `.connect` off an absent
adapter throws. -/
def DataSource.connect (ds0 : DataSource) (hasCb : Bool) : ConnectOutcome :=
  let ds := { ds0 with connecting := true }
  match ds.adapter with
  | none => ⟨ds, [], some .typeError⟩
  | some a =>
    if a.hasConnect then
      match a.connectErr with
      | none =>
        ⟨{ ds with connected := true, connecting := false },
         [.emit "connected"] ++ (if hasCb then [.cb [.undefined]] else []), none⟩
      | some e =>
        ⟨ds, if hasCb then [.cb [.str e]] else [], none⟩
    else
      ⟨ds, if hasCb then [.cbNextTick []] else [], none⟩

/-- Source `DataSource.prototype.freeze`: forwards to `adapter.freezeSchema` when
present; reading it off an absent adapter throws. -/
def DataSource.freeze (ds : DataSource) : Except JSError (List Event) :=
  match ds.adapter with
  | none => .error .typeError
  | some a => .ok (if a.hasFreezeSchema then [Event.freezeSchema] else [])

/-- The uniform body shared by the source's seven discovery/migration
methods: `this.freeze()`, then forward to the identically-named adapter
operation if present, else `cb(...)` when a callback was given. -/
def delegated (ds : DataSource) (hasOp : Adapter → Bool) (opName : String)
    (fwdArgs : List JSVal) (hasCb : Bool) (cbArgs : List JSVal) :
    Except JSError (List Event) :=
  match ds.freeze with
  | .error e => .error e
  | .ok fz =>
    match ds.adapter with
    | none => .error .typeError
    | some a =>
      if hasOp a then .ok (fz ++ [.adapterOp opName fwdArgs])
      else if hasCb then .ok (fz ++ [.cb cbArgs])
      else .ok fz

def DataSource.automigrate (ds : DataSource) (hasCb : Bool) : Except JSError (List Event) :=
  delegated ds (fun a => a.hasAutomigrate) "automigrate" [] hasCb []

def DataSource.autoupdate (ds : DataSource) (hasCb : Bool) : Except JSError (List Event) :=
  delegated ds (fun a => a.hasAutoupdate) "autoupdate" [] hasCb []

def DataSource.discoverModels (ds : DataSource) (options : JSVal) (hasCb : Bool) :
    Except JSError (List Event) :=
  delegated ds (fun a => a.hasDiscoverModels) "discoverModels" [options] hasCb []

def DataSource.discoverModelProperties (ds : DataSource) (options : JSVal) (hasCb : Bool) :
    Except JSError (List Event) :=
  delegated ds (fun a => a.hasDiscoverModelProperties) "discoverModelProperties" [options] hasCb []

def DataSource.discoverPrimaryKeys (ds : DataSource) (owner table : JSVal) (hasCb : Bool) :
    Except JSError (List Event) :=
  delegated ds (fun a => a.hasDiscoverPrimaryKeys) "discoverPrimaryKeys" [owner, table] hasCb []

def DataSource.discoverForeignKeys (ds : DataSource) (owner table : JSVal) (hasCb : Bool) :
    Except JSError (List Event) :=
  delegated ds (fun a => a.hasDiscoverForeignKeys) "discoverForeignKeys" [owner, table] hasCb []

def DataSource.isActual (ds : DataSource) (hasCb : Bool) : Except JSError (List Event) :=
  delegated ds (fun a => a.hasIsActual) "isActual" [] hasCb [.null, .bool true]

/-- Modelled from the spec: `ADL.prototype.define` lives in `./adl.js`,
which is not under `src/`. Per §4.3 the external schema compiler turns the
property map into a TypeDescriptor, produces a constructible record type
tagged with its identity metadata (its `modelName`), and registers the pair
in the `models` / `definitions` mappings (a second `define` with the same
name replaces the first). The two fresh JS objects are allocated on the
heap. -/
def adlDefine (ds : DataSource) (h : Heap) (className : String)
    (properties : PropsObj) (settings : SettingsObj) :
    DataSource × Heap × ModelClass :=
  let (h1, pr) := h.allocProps properties
  let (h2, sr) := h1.allocSettings settings
  let cls : ModelClass := ⟨[("modelName", hiddenProperty (.str className))]⟩
  ({ ds with
      models := setA className cls ds.models,
      definitions := setA className ⟨pr, sr⟩ ds.definitions },
   h2, cls)

/-- Source `DataSource.prototype.define`: throws `Class name required` on an empty
name, normalizes omitted maps (callers pass them explicitly here), runs the
external schema compiler, mixes in the external data-access behaviour set
(not observed by any claim), and, only if a live adapter is present, asks
it to materialize the type. -/
def DataSource.define (ds : DataSource) (h : Heap) (className : String)
    (properties : PropsObj) (settings : SettingsObj) :
    Except JSError (DataSource × Heap × ModelClass × List Event) :=
  if className = "" then .error (.thrown "Class name required")
  else
    let (ds1, h1, cls) := adlDefine ds h className properties settings
    match ds1.adapter with
    | some _ => .ok (ds1, h1, cls, [.adapterDefine className])
    | none => .ok (ds1, h1, cls, [])

/-- Source `DataSource.prototype.tableName`:
`this.definitions[modelName].settings.table = this.definitions[modelName].settings.table || modelName`.
Reading `.settings` of an absent definition throws. -/
def DataSource.tableName (ds : DataSource) (h : Heap) (modelName : String) :
    Except JSError (Heap × JSVal) :=
  match lookupA modelName ds.definitions with
  | none => .error .typeError
  | some md =>
    let s := h.getSettings md.settingsRef
    let cur := jsGet s "table"
    let v := if jsTruthy cur then cur else .str modelName
    .ok (h.setSettings md.settingsRef (setA "table" v s), v)

/-- Source `DataSource.prototype.defineForeignKey`: quits if the key is already a
(truthy — descriptors are objects) entry of the type's properties;
otherwise resolves through the adapter's `defineForeignKey` when present
(3- or 4-argument form by declared arity; the completion throws the
adapter-reported error, or installs `{type: keyType}`), else installs
`{type: Number}`; finally `this.models[className].registerProperty(key)`.
The adapter completion is modelled as invoked synchronously. -/
def DataSource.defineForeignKey (ds : DataSource) (h : Heap)
    (className key foreignClassName : String) :
    Except JSError (Heap × List Event) :=
  match lookupA className ds.definitions with
  | none => .error .typeError
  | some md =>
    if (lookupA key (h.getProps md.propsRef)).isSome then .ok (h, [])
    else
      match ds.adapter with
      | none => .error .typeError
      | some a =>
        let branch : Except JSError (Heap × List Event) :=
          match a.fkCap with
          | some fk =>
            match fk.result with
            | .error e => .error (.thrown e)
            | .ok keyType =>
              .ok (h.setProps md.propsRef (setA key ⟨keyType⟩ (h.getProps md.propsRef)),
                   [.fkResolve (if fk.arity = 4 then [className, key, foreignClassName]
                                else [className, key])])
          | none =>
            .ok (h.setProps md.propsRef (setA key ⟨.number⟩ (h.getProps md.propsRef)), [])
        match branch with
        | .error e => .error e
        | .ok (h', ev) =>
          match lookupA className ds.models with
          | none => .error .typeError
          | some _ => .ok (h', ev ++ [.registerProperty className key])

/-- Source `DataSource.prototype.copyModel`, called with `this = target` (the
transaction context in the source's only call site). Builds the `Slave`
class (construction delegates to `Master`; the prototype-chain rebasing via
`util.inherits` is not observed by the claims) carrying `schema`,
`modelName` and `relations` as hidden properties; registers it, with its
master's descriptor taken field-by-field (`properties` / `settings` object
references copied), unless the name is already present; a non-transaction
target also asks its adapter to materialize the copy. `masterCtx` stands
for `Master.schema`, whose `definitions` the source reads. -/
def DataSource.copyModel (target : DataSource) (targetVal : JSVal)
    (masterCtx : DataSource) (Master : ModelClass) :
    Except JSError (DataSource × ModelClass × List Event) :=
  let className := jsToKey (Master.getProp "modelName")
  let Slave : ModelClass :=
    ⟨[("schema", hiddenProperty targetVal),
      ("modelName", hiddenProperty (.str className)),
      ("relations", hiddenProperty (Master.getProp "relations"))]⟩
  if (lookupA className target.models).isSome then
    .ok (target, Slave, [])
  else
    match lookupA className masterCtx.definitions with
    | none => .error .typeError
    | some md =>
      let target' := { target with
        models := setA className Slave target.models,
        definitions := setA className ⟨md.propsRef, md.settingsRef⟩ target.definitions }
      if target.isTransaction then
        .ok (target', Slave, [])
      else
        match target.adapter with
        | none => .error .typeError
        | some _ => .ok (target', Slave, [.adapterDefine className])

/-- The transactional adapter handle returned by the parent adapter's
`transaction()` factory; opaque to every claim, so modelled as a
capability-less stub. -/
def txAdapterStub : Adapter :=
  { hasConnect := false, connectErr := none, hasFreezeSchema := false,
    hasAutomigrate := false, hasAutoupdate := false, hasIsActual := false,
    hasDiscoverModels := false, hasDiscoverModelProperties := false,
    hasDiscoverPrimaryKeys := false, hasDiscoverForeignKeys := false,
    fkCap := none, hasTransaction := false }

/-- The `for (var i in schema.models) schema.copyModel.call(transaction, ...)`
loop of `transaction()`. -/
def copyAll (schema : DataSource) (selfVal : JSVal) :
    List (String × ModelClass) → DataSource → Except JSError (DataSource × List Event)
  | [], t => .ok (t, [])
  | (_, M) :: rest, t =>
    match DataSource.copyModel t selfVal schema M with
    | .error e => .error e
    | .ok (t', _, ev) =>
      match copyAll schema selfVal rest t' with
      | .error e => .error e
      | .ok (t'', evs) => .ok (t'', ev ++ evs)

/-- Source `DataSource.prototype.transaction`: a fresh context with
`isTransaction = true`, `name`/`settings` taken from the parent,
`connected = false`, `connecting = false`, the transactional adapter from
`schema.adapter.transaction()` (throws when the adapter is absent or lacks
the factory), blank `models`/`definitions`, then the `copyModel` loop.
`selfVal` is the new context as a JS value (tag for `Slave.schema`);
`transaction.connect` reuses `DataSource.connect` (the source shares the
function, late-bound on `this`), and `origin`/`exec` are not observed by
any claim. -/
def DataSource.transaction (schema : DataSource) (selfVal : JSVal) :
    Except JSError (DataSource × List Event) :=
  match schema.adapter with
  | none => .error .typeError
  | some a =>
    if a.hasTransaction then
      copyAll schema selfVal schema.models
        { name := schema.name, settings := schema.settings,
          connected := false, connecting := false,
          adapter := some txAdapterStub, isTransaction := true,
          models := [], definitions := [] }
    else .error .typeError

/-- The JS mutation `ctx.definitions[name].settings[k] = v` (a no-op stand-in
when `name` is absent; every use site has it present). -/
def setTypeSetting (ctx : DataSource) (h : Heap) (name k : String) (v : JSVal) : Heap :=
  match lookupA name ctx.definitions with
  | none => h
  | some md => h.setSettings md.settingsRef (setA k v (h.getSettings md.settingsRef))

/-- The JS read `ctx.definitions[name].settings[k]` (`undefined` stand-in
when `name` is absent; every use site has it present). -/
def getTypeSetting (ctx : DataSource) (h : Heap) (name k : String) : JSVal :=
  match lookupA name ctx.definitions with
  | none => .undefined
  | some md => jsGet (h.getSettings md.settingsRef) k

/-- Registry well-formedness maintained by `define` / `copyModel`: every
registered class is keyed by its own `modelName`, and has a matching
`definitions` entry. -/
def WF (s : DataSource) : Prop :=
  ∀ p ∈ s.models, ModelClass.getProp p.2 "modelName" = JSVal.str p.1 ∧
    (lookupA p.1 s.definitions).isSome

def exceptIsOk {ε α : Type} : Except ε α → Bool
  | .ok _ => true
  | .error _ => false

/-! ### Claim C1 — adapter-less DataSource: define vs. delegated operations -/

def c1props : PropsObj := [("name", ⟨.custom "string"⟩)]

def c1base : DataSource := DataSource.setup (some "undefined-adapter") .undefined none

def c1res : Except JSError (DataSource × Heap × ModelClass × List Event) :=
  DataSource.define c1base Heap.empty "User" c1props []

def c1ds : DataSource :=
  match c1res with
  | .ok (d, _, _, _) => d
  | .error _ => c1base

/-- C1, counterexample: on a DataSource whose backend resolved to no
adapter, `define('User', {name: 'string'})` does return a registered type,
but `autoupdate(cb)` is not a successful no-op: it throws a TypeError
(`this.freeze()` reads `freezeSchema` off the undefined adapter) and the
callback is never invoked — refuting the claim at this concrete input. -/
theorem C1_counterexample :
    exceptIsOk c1res = true ∧
    (lookupA "User" c1ds.models).isSome = true ∧
    DataSource.autoupdate c1ds true = .error .typeError := by
  refine ⟨rfl, rfl, rfl⟩

/-- C1, amended: for every DataSource constructed with a backend that
resolves to no adapter, `define` (with a nonempty class name) succeeds and
registers a constructible type, but the delegated operations are not
no-ops: `autoupdate(cb)` throws a TypeError while reading `freezeSchema`
from the undefined adapter, and never invokes `cb`. -/
theorem C1_noAdapter_define_ok_autoupdate_throws
    (name : Option String) (settings : JSVal) (className : String)
    (props : PropsObj) (stgs : SettingsObj) (hasCb : Bool)
    (hcn : className ≠ "") :
    ∃ ds1 h1 cls,
      DataSource.define (DataSource.setup name settings none) Heap.empty className props stgs
        = .ok (ds1, h1, cls, []) ∧
      (lookupA className ds1.models).isSome = true ∧
      DataSource.autoupdate ds1 hasCb = .error .typeError := by
  refine ⟨{ name := name, settings := settings, connected := false, connecting := false,
            adapter := none, isTransaction := false,
            models := [(className, ⟨[("modelName", hiddenProperty (.str className))]⟩)],
            definitions := [(className, ⟨0, 0⟩)] },
          ⟨[props], [stgs]⟩,
          ⟨[("modelName", hiddenProperty (.str className))]⟩, ?_, ?_, ?_⟩
  · simp [DataSource.define, DataSource.setup, adlDefine, Heap.allocProps,
          Heap.allocSettings, Heap.empty, setA, hcn]
  · simp
  · simp [DataSource.autoupdate, delegated, DataSource.freeze]

/-- C1, witness for the amended theorem at a concrete input. -/
theorem C1_witness :
    "User" ≠ "" ∧
    (∃ ds1 h1 cls,
      DataSource.define (DataSource.setup (some "somedb") .undefined none) Heap.empty
          "User" c1props [] = .ok (ds1, h1, cls, []) ∧
      (lookupA "User" ds1.models).isSome = true ∧
      DataSource.autoupdate ds1 true = .error .typeError) :=
  ⟨by decide,
   C1_noAdapter_define_ok_autoupdate_throws (some "somedb") .undefined "User" c1props [] true
     (by decide)⟩

/-! ### Claim C3 — connect when the adapter has no connect operation -/

def c3ds : DataSource :=
  { name := some "memory", settings := .undefined, connected := false, connecting := false,
    adapter := some txAdapterStub, isTransaction := false, models := [], definitions := [] }

/-- C3, counterexample: with an adapter lacking `connect`, the completion is
indeed scheduled on the next tick with no error, but the lifecycle flags
are NOT left unchanged: `connecting` is set to `true` unconditionally
before the capability check, so it flips from `false` to `true` here —
refuting the claim at this concrete input. -/
theorem C3_counterexample :
    (DataSource.connect c3ds true).events = [.cbNextTick []] ∧
    (DataSource.connect c3ds true).thrown = none ∧
    c3ds.connecting = false ∧
    (DataSource.connect c3ds true).ds.connecting = true := by
  refine ⟨rfl, rfl, rfl, rfl⟩

/-- C3, amended: for every DataSource whose adapter has no connect
operation, `connect(cb)` schedules the completion on the next tick with no
error and throws nothing, leaves `connected` unchanged, but sets
`connecting` to `true` (the source sets it before checking the
capability). -/
theorem C3_connect_without_adapter_connect (ds : DataSource) (a : Adapter)
    (hA : ds.adapter = some a) (hC : a.hasConnect = false) :
    DataSource.connect ds true =
      ⟨{ ds with connecting := true }, [.cbNextTick []], none⟩ := by
  simp [DataSource.connect, hA, hC]

/-- C3, witness for the amended theorem at a concrete input. -/
theorem C3_witness :
    c3ds.adapter = some txAdapterStub ∧ txAdapterStub.hasConnect = false ∧
    DataSource.connect c3ds true =
      ⟨{ c3ds with connecting := true }, [.cbNextTick []], none⟩ :=
  ⟨rfl, rfl, C3_connect_without_adapter_connect c3ds txAdapterStub rfl rfl⟩

/-! ### Claim C4 — error reported by the adapter's foreign-key resolution -/

def c4a : Adapter := { txAdapterStub with fkCap := some ⟨3, .error "FK resolution failed"⟩ }

def c4cls : ModelClass := ⟨[("modelName", hiddenProperty (.str "User"))]⟩

def c4heap : Heap := ⟨[[]], [[]]⟩

def c4ds : DataSource :=
  { name := some "db", settings := .undefined, connected := true, connecting := false,
    adapter := some c4a, isTransaction := false,
    models := [("User", c4cls)], definitions := [("User", ⟨0, 0⟩)] }

/-- C4, counterexample: when the adapter's foreign-key-type resolution
reports an error, `defineForeignKey`'s completion executes
`if (err) throw err` — the error is raised as an exception from inside the
callback instead of being delivered through a completion's error argument,
refuting the claim at this concrete input. -/
theorem C4_counterexample :
    DataSource.defineForeignKey c4ds c4heap "User" "accountId" "Account"
      = .error (.thrown "FK resolution failed") := by
  rfl

/-- C4, amended: whenever the adapter's foreign-key-type resolution reports
an error for a key not yet present, `defineForeignKey` throws that error
from its internal completion (the fatal-failure path of §4.3) rather than
delivering it through an error argument. -/
theorem C4_fk_error_completion_throws (ds : DataSource) (h : Heap)
    (c k f : String) (md : TypeDescriptor) (a : Adapter) (fk : FkCap) (e : String)
    (hDef : lookupA c ds.definitions = some md)
    (hAbsent : (lookupA k (h.getProps md.propsRef)).isSome = false)
    (hA : ds.adapter = some a) (hFk : a.fkCap = some fk) (hE : fk.result = .error e) :
    DataSource.defineForeignKey ds h c k f = .error (.thrown e) := by
  simp [DataSource.defineForeignKey, hDef, hAbsent, hA, hFk, hE]

/-- C4, witness for the amended theorem at a concrete input. -/
theorem C4_witness :
    lookupA "User" c4ds.definitions = some ⟨0, 0⟩ ∧
    (lookupA "accountId" (c4heap.getProps 0)).isSome = false ∧
    c4ds.adapter = some c4a ∧
    c4a.fkCap = some ⟨3, .error "FK resolution failed"⟩ ∧
    DataSource.defineForeignKey c4ds c4heap "User" "accountId" "Account"
      = .error (.thrown "FK resolution failed") :=
  ⟨rfl, rfl, rfl, rfl,
   C4_fk_error_completion_throws c4ds c4heap "User" "accountId" "Account"
     ⟨0, 0⟩ c4a ⟨3, .error "FK resolution failed"⟩ "FK resolution failed"
     rfl rfl rfl rfl rfl⟩

/-! ### Claim C10 — failed connect leaves the connecting flag set -/

/-- C10: for every DataSource whose adapter's connect operation reports an
error, `connect(cb)` delivers exactly that error to the completion, throws
nothing, leaves `connected` unchanged (never sets it to `true`), and
leaves `connecting = true` afterwards — no code path resets it on
failure, so the DataSource stays in the connecting state. -/
theorem C10_connect_error_keeps_connecting (ds : DataSource) (a : Adapter) (e : String)
    (hA : ds.adapter = some a) (hC : a.hasConnect = true) (hE : a.connectErr = some e) :
    DataSource.connect ds true =
      ⟨{ ds with connecting := true }, [.cb [.str e]], none⟩ := by
  simp [DataSource.connect, hA, hC, hE]

def c10a : Adapter := { txAdapterStub with hasConnect := true, connectErr := some "ECONNREFUSED" }

def c10ds : DataSource :=
  { name := some "mysql", settings := .undefined, connected := false, connecting := false,
    adapter := some c10a, isTransaction := false, models := [], definitions := [] }

/-- C10, witness at a concrete input. -/
theorem C10_witness :
    c10ds.adapter = some c10a ∧ c10a.hasConnect = true ∧
    c10a.connectErr = some "ECONNREFUSED" ∧
    DataSource.connect c10ds true =
      ⟨{ c10ds with connecting := true }, [.cb [.str "ECONNREFUSED"]], none⟩ :=
  ⟨rfl, rfl, rfl, C10_connect_error_keeps_connecting c10ds c10a "ECONNREFUSED" rfl rfl rfl⟩

/-! ### Claim C5 — the uniform discovery/migration delegation pattern -/

theorem delegated_spec (ds : DataSource) (a : Adapter) (hasOp : Adapter → Bool)
    (opName : String) (fwdArgs : List JSVal) (cbArgs : List JSVal)
    (hA : ds.adapter = some a) :
    delegated ds hasOp opName fwdArgs true cbArgs =
      .ok ((if a.hasFreezeSchema then [Event.freezeSchema] else []) ++
           (if hasOp a then [.adapterOp opName fwdArgs] else [.cb cbArgs])) := by
  simp only [delegated, DataSource.freeze, hA]
  by_cases h : hasOp a <;> simp [h]

/-- C5: for every DataSource with a live adapter, each of the seven
discovery/migration operations first runs `freeze` (one `freezeSchema`
adapter call when the hook is present, none otherwise), then forwards to
the identically-named adapter operation when implemented, and otherwise
invokes the completion successfully — `isActual` specifically with
`cb(null, true)`, the others with `cb()`. -/
theorem C5_delegates_freeze_then_forward (ds : DataSource) (a : Adapter)
    (options owner table : JSVal) (hA : ds.adapter = some a) :
    DataSource.automigrate ds true =
      .ok ((if a.hasFreezeSchema then [Event.freezeSchema] else []) ++
           (if a.hasAutomigrate then [.adapterOp "automigrate" []] else [.cb []])) ∧
    DataSource.autoupdate ds true =
      .ok ((if a.hasFreezeSchema then [Event.freezeSchema] else []) ++
           (if a.hasAutoupdate then [.adapterOp "autoupdate" []] else [.cb []])) ∧
    DataSource.isActual ds true =
      .ok ((if a.hasFreezeSchema then [Event.freezeSchema] else []) ++
           (if a.hasIsActual then [.adapterOp "isActual" []] else [.cb [.null, .bool true]])) ∧
    DataSource.discoverModels ds options true =
      .ok ((if a.hasFreezeSchema then [Event.freezeSchema] else []) ++
           (if a.hasDiscoverModels then [.adapterOp "discoverModels" [options]] else [.cb []])) ∧
    DataSource.discoverModelProperties ds options true =
      .ok ((if a.hasFreezeSchema then [Event.freezeSchema] else []) ++
           (if a.hasDiscoverModelProperties then [.adapterOp "discoverModelProperties" [options]]
            else [.cb []])) ∧
    DataSource.discoverPrimaryKeys ds owner table true =
      .ok ((if a.hasFreezeSchema then [Event.freezeSchema] else []) ++
           (if a.hasDiscoverPrimaryKeys then [.adapterOp "discoverPrimaryKeys" [owner, table]]
            else [.cb []])) ∧
    DataSource.discoverForeignKeys ds owner table true =
      .ok ((if a.hasFreezeSchema then [Event.freezeSchema] else []) ++
           (if a.hasDiscoverForeignKeys then [.adapterOp "discoverForeignKeys" [owner, table]]
            else [.cb []])) :=
  ⟨delegated_spec ds a _ _ _ _ hA, delegated_spec ds a _ _ _ _ hA,
   delegated_spec ds a _ _ _ _ hA, delegated_spec ds a _ _ _ _ hA,
   delegated_spec ds a _ _ _ _ hA, delegated_spec ds a _ _ _ _ hA,
   delegated_spec ds a _ _ _ _ hA⟩

def c5a : Adapter := { txAdapterStub with hasFreezeSchema := true, hasAutomigrate := true }

def c5ds : DataSource :=
  { name := some "stub", settings := .undefined, connected := true, connecting := false,
    adapter := some c5a, isTransaction := false, models := [], definitions := [] }

/-- C5, witness at a concrete stub-backend DataSource (the spec's scenario:
a backend implementing neither `isActual` nor the discovery operations
makes `isActual(cb)` invoke `cb(null, true)`). -/
theorem C5_witness :
    c5ds.adapter = some c5a ∧
    (DataSource.automigrate c5ds true =
      .ok ((if c5a.hasFreezeSchema then [Event.freezeSchema] else []) ++
           (if c5a.hasAutomigrate then [.adapterOp "automigrate" []] else [.cb []])) ∧
    DataSource.autoupdate c5ds true =
      .ok ((if c5a.hasFreezeSchema then [Event.freezeSchema] else []) ++
           (if c5a.hasAutoupdate then [.adapterOp "autoupdate" []] else [.cb []])) ∧
    DataSource.isActual c5ds true =
      .ok ((if c5a.hasFreezeSchema then [Event.freezeSchema] else []) ++
           (if c5a.hasIsActual then [.adapterOp "isActual" []] else [.cb [.null, .bool true]])) ∧
    DataSource.discoverModels c5ds .undefined true =
      .ok ((if c5a.hasFreezeSchema then [Event.freezeSchema] else []) ++
           (if c5a.hasDiscoverModels then [.adapterOp "discoverModels" [.undefined]] else [.cb []])) ∧
    DataSource.discoverModelProperties c5ds .undefined true =
      .ok ((if c5a.hasFreezeSchema then [Event.freezeSchema] else []) ++
           (if c5a.hasDiscoverModelProperties then [.adapterOp "discoverModelProperties" [.undefined]]
            else [.cb []])) ∧
    DataSource.discoverPrimaryKeys c5ds .null (.str "ACCOUNT") true =
      .ok ((if c5a.hasFreezeSchema then [Event.freezeSchema] else []) ++
           (if c5a.hasDiscoverPrimaryKeys then [.adapterOp "discoverPrimaryKeys" [.null, .str "ACCOUNT"]]
            else [.cb []])) ∧
    DataSource.discoverForeignKeys c5ds .null (.str "ACCOUNT") true =
      .ok ((if c5a.hasFreezeSchema then [Event.freezeSchema] else []) ++
           (if c5a.hasDiscoverForeignKeys then [.adapterOp "discoverForeignKeys" [.null, .str "ACCOUNT"]]
            else [.cb []]))) :=
  ⟨rfl, C5_delegates_freeze_then_forward c5ds c5a .undefined .null (.str "ACCOUNT") rfl⟩

/-! ### Claim C8 — tableName defaults to the type name and memoizes -/

theorem list_get?_of_length_le {α : Type} (l : List α) (i : Nat) (h : l.length ≤ i) :
    l.get? i = none := by
  induction l generalizing i with
  | nil => rfl
  | cons x xs ih =>
    cases i with
    | zero => exact absurd h (by simp)
    | succ n => exact ih n (by simpa using h)

theorem list_set_of_length_le {α : Type} (l : List α) (i : Nat) (a : α) (h : l.length ≤ i) :
    l.set i a = l := by
  induction l generalizing i with
  | nil => rfl
  | cons x xs ih =>
    cases i with
    | zero => exact absurd h (by simp)
    | succ n => simp [List.set, ih n (by simpa using h)]

theorem tableName_eq (ds : DataSource) (h : Heap) (t : String) (md : TypeDescriptor)
    (hDef : lookupA t ds.definitions = some md) :
    DataSource.tableName ds h t =
      .ok (h.setSettings md.settingsRef
             (setA "table"
               (if jsTruthy (jsGet (h.getSettings md.settingsRef) "table") = true
                then jsGet (h.getSettings md.settingsRef) "table" else .str t)
               (h.getSettings md.settingsRef)),
           if jsTruthy (jsGet (h.getSettings md.settingsRef) "table") = true
           then jsGet (h.getSettings md.settingsRef) "table" else .str t) := by
  simp [DataSource.tableName, hDef]

/-- C8: `tableName(t)` on a declared type returns the same value on two
consecutive calls (the second reads the cached `settings.table`), and when
no truthy `table` was configured in the type's settings, that value is the
type name itself. -/
theorem C8_tableName_memoized (ds : DataSource) (h : Heap) (t : String)
    (md : TypeDescriptor) (hDef : lookupA t ds.definitions = some md) :
    ∃ h1 v1 h2,
      DataSource.tableName ds h t = .ok (h1, v1) ∧
      DataSource.tableName ds h1 t = .ok (h2, v1) ∧
      (jsTruthy (jsGet (h.getSettings md.settingsRef) "table") = false → v1 = JSVal.str t) := by
  have e1 := tableName_eq ds h t md hDef
  by_cases hc : jsTruthy (jsGet (h.getSettings md.settingsRef) "table") = true
  · -- a truthy table name is already configured: both calls return it
    rw [if_pos hc] at e1
    by_cases hr : md.settingsRef < h.settingsCells.length
    · have hget := Heap.getSettings_setSettings_self h md.settingsRef
        (setA "table" (jsGet (h.getSettings md.settingsRef) "table")
          (h.getSettings md.settingsRef)) hr
      have e2 := tableName_eq ds
        (h.setSettings md.settingsRef
          (setA "table" (jsGet (h.getSettings md.settingsRef) "table")
            (h.getSettings md.settingsRef))) t md hDef
      rw [hget] at e2
      have hv : jsGet (setA "table" (jsGet (h.getSettings md.settingsRef) "table")
          (h.getSettings md.settingsRef)) "table"
          = jsGet (h.getSettings md.settingsRef) "table" := by
        simp [jsGet]
      rw [hv, if_pos hc] at e2
      exact ⟨_, _, _, e1, e2, fun hf => absurd hc (by simp [hf])⟩
    · -- impossible: a dangling reference reads as an empty object, which
      -- has no truthy table entry
      have hs0 : h.getSettings md.settingsRef = [] := by
        unfold Heap.getSettings
        rw [list_get?_of_length_le _ _ (Nat.le_of_not_lt hr)]
        rfl
      rw [hs0] at hc
      simp [jsGet, jsTruthy] at hc
  · -- no truthy table configured: both calls return the type name
    rw [if_neg hc] at e1
    by_cases hr : md.settingsRef < h.settingsCells.length
    · have hget := Heap.getSettings_setSettings_self h md.settingsRef
        (setA "table" (JSVal.str t) (h.getSettings md.settingsRef)) hr
      have e2 := tableName_eq ds
        (h.setSettings md.settingsRef
          (setA "table" (JSVal.str t) (h.getSettings md.settingsRef))) t md hDef
      rw [hget] at e2
      have hv : jsGet (setA "table" (JSVal.str t) (h.getSettings md.settingsRef)) "table"
          = JSVal.str t := by
        simp [jsGet]
      rw [hv, ite_self] at e2
      exact ⟨_, _, _, e1, e2, fun _ => rfl⟩
    · have hs0 : h.getSettings md.settingsRef = [] := by
        unfold Heap.getSettings
        rw [list_get?_of_length_le _ _ (Nat.le_of_not_lt hr)]
        rfl
      have hset : ∀ o, h.setSettings md.settingsRef o = h := by
        intro o
        simp only [Heap.setSettings]
        rw [list_set_of_length_le _ _ _ (Nat.le_of_not_lt hr)]
      rw [hs0, hset] at e1
      exact ⟨h, JSVal.str t, h, e1, e1, fun _ => rfl⟩

def c8ds : DataSource :=
  { name := some "db", settings := .undefined, connected := true, connecting := false,
    adapter := some txAdapterStub, isTransaction := false,
    models := [("Post", ⟨[("modelName", hiddenProperty (.str "Post"))]⟩)],
    definitions := [("Post", ⟨0, 0⟩)] }

def c8heap : Heap := ⟨[[]], [[]]⟩

/-- C8, witness at a concrete input. -/
theorem C8_witness :
    lookupA "Post" c8ds.definitions = some ⟨0, 0⟩ ∧
    (∃ h1 v1 h2,
      DataSource.tableName c8ds c8heap "Post" = .ok (h1, v1) ∧
      DataSource.tableName c8ds h1 "Post" = .ok (h2, v1) ∧
      (jsTruthy (jsGet (c8heap.getSettings (TypeDescriptor.mk 0 0).settingsRef) "table") = false →
        v1 = JSVal.str "Post")) :=
  ⟨rfl, C8_tableName_memoized c8ds c8heap "Post" ⟨0, 0⟩ rfl⟩

/-! ### Claim C7 — defineForeignKey is idempotent -/

def isFkResolve : Event → Bool
  | .fkResolve _ => true
  | _ => false

/-- C7: `defineForeignKey` quits immediately when the key already exists in
the type's properties, and after any successful call the key is present, so
a second call for the same (type, key) is a pure no-op (no heap change, no
adapter call, no property registration) — the resolution work across the
two calls happens at most once. The adapter completion is modelled as
synchronous, matching the guard the source relies on. -/
theorem C7_defineForeignKey_idempotent (ds : DataSource) (h : Heap)
    (c k f : String) (md : TypeDescriptor)
    (hDef : lookupA c ds.definitions = some md)
    (hRef : md.propsRef < h.propsCells.length) :
    ((lookupA k (h.getProps md.propsRef)).isSome = true →
       DataSource.defineForeignKey ds h c k f = .ok (h, [])) ∧
    (∀ h1 ev1, DataSource.defineForeignKey ds h c k f = .ok (h1, ev1) →
       (lookupA k (h1.getProps md.propsRef)).isSome = true ∧
       DataSource.defineForeignKey ds h1 c k f = .ok (h1, []) ∧
       ev1.countP isFkResolve ≤ 1) := by
  constructor
  · intro hg
    simp [DataSource.defineForeignKey, hDef, hg]
  · intro h1 ev1 hok
    by_cases hg : (lookupA k (h.getProps md.propsRef)).isSome = true
    · simp [DataSource.defineForeignKey, hDef, hg] at hok
      obtain ⟨rfl, rfl⟩ := hok
      exact ⟨hg, by simp [DataSource.defineForeignKey, hDef, hg], by simp⟩
    · rcases hA : ds.adapter with _ | a
      · simp [DataSource.defineForeignKey, hDef, hg, hA] at hok
      · rcases hFk : a.fkCap with _ | fk
        · rcases hM : lookupA c ds.models with _ | cls
          · simp [DataSource.defineForeignKey, hDef, hg, hA, hFk, hM] at hok
          · simp [DataSource.defineForeignKey, hDef, hg, hA, hFk, hM] at hok
            obtain ⟨rfl, rfl⟩ := hok
            have hget := Heap.getProps_setProps_self h md.propsRef
              (setA k ⟨.number⟩ (h.getProps md.propsRef)) hRef
            have hpres : (lookupA k
                ((h.setProps md.propsRef
                  (setA k ⟨.number⟩ (h.getProps md.propsRef))).getProps md.propsRef)).isSome
                = true := by
              rw [hget]; simp
            exact ⟨hpres, by simp [DataSource.defineForeignKey, hDef, hpres],
                   by simp [List.countP_cons, isFkResolve]⟩
        · rcases hR : fk.result with e | kt
          · simp [DataSource.defineForeignKey, hDef, hg, hA, hFk, hR] at hok
          · rcases hM : lookupA c ds.models with _ | cls
            · simp [DataSource.defineForeignKey, hDef, hg, hA, hFk, hR, hM] at hok
            · simp [DataSource.defineForeignKey, hDef, hg, hA, hFk, hR, hM] at hok
              obtain ⟨rfl, rfl⟩ := hok
              have hget := Heap.getProps_setProps_self h md.propsRef
                (setA k ⟨kt⟩ (h.getProps md.propsRef)) hRef
              have hpres : (lookupA k
                  ((h.setProps md.propsRef
                    (setA k ⟨kt⟩ (h.getProps md.propsRef))).getProps md.propsRef)).isSome
                  = true := by
                rw [hget]; simp
              exact ⟨hpres, by simp [DataSource.defineForeignKey, hDef, hpres],
                     by simp [List.countP_cons, isFkResolve]⟩

def c7ds : DataSource :=
  { name := some "db", settings := .undefined, connected := true, connecting := false,
    adapter := some txAdapterStub, isTransaction := false,
    models := [("User", ⟨[("modelName", hiddenProperty (.str "User"))]⟩)],
    definitions := [("User", ⟨0, 0⟩)] }

def c7heap : Heap := ⟨[[]], [[]]⟩

def c7h1 : Heap := ⟨[[("ownerId", ⟨.number⟩)]], [[]]⟩

/-- C7, witness at a concrete input: the first call installs the fallback
numeric key, the second is a no-op. -/
theorem C7_witness :
    lookupA "User" c7ds.definitions = some ⟨0, 0⟩ ∧
    (TypeDescriptor.mk 0 0).propsRef < c7heap.propsCells.length ∧
    DataSource.defineForeignKey c7ds c7heap "User" "ownerId" "Owner"
      = .ok (c7h1, [.registerProperty "User" "ownerId"]) ∧
    ((lookupA "ownerId" (c7h1.getProps (TypeDescriptor.mk 0 0).propsRef)).isSome = true ∧
     DataSource.defineForeignKey c7ds c7h1 "User" "ownerId" "Owner" = .ok (c7h1, []) ∧
     ([Event.registerProperty "User" "ownerId"]).countP isFkResolve ≤ 1) :=
  ⟨rfl, by decide, rfl,
   (C7_defineForeignKey_idempotent c7ds c7heap "User" "ownerId" "Owner" ⟨0, 0⟩ rfl
      (by decide)).2 c7h1 [.registerProperty "User" "ownerId"] rfl⟩

/-! ### Claim C9 — copyModel's identity metadata is immutable and hidden -/

/-- The three ways a hidden property is observed: present with all three
attributes cleared, assignment-proof, and invisible to enumeration. -/
def hiddenAt (m : ModelClass) (n : String) : Prop :=
  (∃ pa, lookupA n m.props = some pa ∧ pa.writable = false ∧
     pa.enumerable = false ∧ pa.configurable = false) ∧
  (∀ v, (m.jsAssign n v).getProp n = m.getProp n) ∧
  n ∉ m.enumKeys

theorem hiddenAt_of (l : List (String × PropAttr)) (n : String) (v : JSVal)
    (hl : lookupA n l = some (hiddenProperty v))
    (hmem : n ∉ (ModelClass.mk l).enumKeys) :
    hiddenAt ⟨l⟩ n := by
  refine ⟨⟨hiddenProperty v, hl, rfl, rfl, rfl⟩, ?_, hmem⟩
  intro w
  simp [ModelClass.jsAssign, hl, hiddenProperty]

/-- C9: every class produced by `copyModel` carries `schema`, `modelName`
and `relations` as non-writable, non-enumerable, non-configurable
properties: assigning to any of them leaves the value unchanged, and none
of them shows up in generic property enumeration. -/
theorem C9_copyModel_hidden_identity (target : DataSource) (targetVal : JSVal)
    (masterCtx : DataSource) (Master : ModelClass)
    (t' : DataSource) (Slave : ModelClass) (ev : List Event)
    (hOk : DataSource.copyModel target targetVal masterCtx Master = .ok (t', Slave, ev)) :
    hiddenAt Slave "schema" ∧ hiddenAt Slave "modelName" ∧ hiddenAt Slave "relations" := by
  have hS : Slave =
      ⟨[("schema", hiddenProperty targetVal),
        ("modelName", hiddenProperty (.str (jsToKey (Master.getProp "modelName")))),
        ("relations", hiddenProperty (Master.getProp "relations"))]⟩ := by
    rcases hg : lookupA (jsToKey (ModelClass.getProp Master "modelName")) target.models
        with _ | cls
    · rcases hd : lookupA (jsToKey (ModelClass.getProp Master "modelName")) masterCtx.definitions
          with _ | md
      · simp [DataSource.copyModel, hg, hd] at hOk
      · by_cases ht : target.isTransaction = true
        · simp [DataSource.copyModel, hg, hd, ht] at hOk
          exact hOk.2.1.symm
        · rcases ha : target.adapter with _ | a
          · simp [DataSource.copyModel, hg, hd, ht, ha] at hOk
          · simp [DataSource.copyModel, hg, hd, ht, ha] at hOk
            exact hOk.2.1.symm
    · simp [DataSource.copyModel, hg] at hOk
      exact hOk.2.1.symm
  rw [hS]
  refine ⟨hiddenAt_of _ _ targetVal rfl ?_,
          hiddenAt_of _ _ (.str (jsToKey (Master.getProp "modelName"))) rfl ?_,
          hiddenAt_of _ _ (Master.getProp "relations") rfl ?_⟩
  all_goals simp [ModelClass.enumKeys, hiddenProperty]

def c9master : ModelClass := ⟨[("modelName", hiddenProperty (.str "User"))]⟩

def c9masterCtx : DataSource :=
  { name := some "db", settings := .undefined, connected := true, connecting := false,
    adapter := some txAdapterStub, isTransaction := false,
    models := [("User", c9master)], definitions := [("User", ⟨0, 0⟩)] }

def c9target : DataSource :=
  { name := some "db", settings := .undefined, connected := false, connecting := false,
    adapter := some txAdapterStub, isTransaction := true,
    models := [], definitions := [] }

def c9slave : ModelClass :=
  ⟨[("schema", hiddenProperty (.ctx 1)),
    ("modelName", hiddenProperty (.str "User")),
    ("relations", hiddenProperty .undefined)]⟩

def c9after : DataSource :=
  { c9target with models := [("User", c9slave)], definitions := [("User", ⟨0, 0⟩)] }

/-- C9, witness at a concrete input. -/
theorem C9_witness :
    DataSource.copyModel c9target (.ctx 1) c9masterCtx c9master = .ok (c9after, c9slave, []) ∧
    (hiddenAt c9slave "schema" ∧ hiddenAt c9slave "modelName" ∧ hiddenAt c9slave "relations") :=
  ⟨by decide,
   C9_copyModel_hidden_identity c9target (.ctx 1) c9masterCtx c9master c9after c9slave []
     (by decide)⟩

/-! ### Transaction sandbox: the copyModel loop -/

theorem copyModel_tx_step (schema t : DataSource) (selfVal : JSVal) (n : String)
    (M : ModelClass) (md : TypeDescriptor)
    (hname : ModelClass.getProp M "modelName" = JSVal.str n)
    (htx : t.isTransaction = true)
    (hd : lookupA n schema.definitions = some md) :
    ∃ t' S, DataSource.copyModel t selfVal schema M = .ok (t', S, []) ∧
      t'.name = t.name ∧ t'.settings = t.settings ∧ t'.connected = t.connected ∧
      t'.connecting = t.connecting ∧ t'.adapter = t.adapter ∧
      t'.isTransaction = t.isTransaction ∧
      (∀ m, (lookupA m t'.models).isSome ↔ ((lookupA m t.models).isSome ∨ m = n)) ∧
      (∀ m d, lookupA m t'.definitions = some d →
         (lookupA m t.definitions = some d ∨ lookupA m schema.definitions = some d)) ∧
      ((∀ m, (lookupA m t.models).isSome ↔ (lookupA m t.definitions).isSome) →
       (∀ m, (lookupA m t'.models).isSome ↔ (lookupA m t'.definitions).isSome)) := by
  have hkey : jsToKey (ModelClass.getProp M "modelName") = n := by rw [hname]; rfl
  by_cases hg : (lookupA n t.models).isSome = true
  · refine ⟨t, ⟨[("schema", hiddenProperty selfVal),
        ("modelName", hiddenProperty (JSVal.str n)),
        ("relations", hiddenProperty (ModelClass.getProp M "relations"))]⟩,
      ?_, rfl, rfl, rfl, rfl, rfl, rfl, ?_, ?_, fun hls => hls⟩
    · simp [DataSource.copyModel, hkey, hg]
    · intro m
      constructor
      · exact fun hm => Or.inl hm
      · rintro (hm | rfl)
        · exact hm
        · exact hg
    · exact fun m d hmd => Or.inl hmd
  · refine ⟨{ t with
        models := setA n ⟨[("schema", hiddenProperty selfVal),
          ("modelName", hiddenProperty (JSVal.str n)),
          ("relations", hiddenProperty (ModelClass.getProp M "relations"))]⟩ t.models,
        definitions := setA n ⟨md.propsRef, md.settingsRef⟩ t.definitions },
      ⟨[("schema", hiddenProperty selfVal),
        ("modelName", hiddenProperty (JSVal.str n)),
        ("relations", hiddenProperty (ModelClass.getProp M "relations"))]⟩,
      ?_, rfl, rfl, rfl, rfl, rfl, rfl, ?_, ?_, ?_⟩
    · simp [DataSource.copyModel, hkey, hg, hd, htx]
    · intro m
      by_cases hmn : m = n
      · subst hmn
        simp
      · simp only [lookupA_setA_ne _ _ _ _ (fun he => hmn he.symm)]
        constructor
        · exact fun hm => Or.inl hm
        · rintro (hm | rfl)
          · exact hm
          · exact absurd rfl hmn
    · intro m d hmd
      by_cases hmn : m = n
      · subst hmn
        rw [lookupA_setA_self] at hmd
        right
        rw [hd]
        cases hmd
        rfl
      · rw [lookupA_setA_ne _ _ _ _ (fun he => hmn he.symm)] at hmd
        exact Or.inl hmd
    · intro hls m
      by_cases hmn : m = n
      · subst hmn
        simp
      · simp only [lookupA_setA_ne _ _ _ _ (fun he => hmn he.symm)]
        exact hls m

theorem copyAll_spec (schema : DataSource) (selfVal : JSVal) :
    ∀ (l : List (String × ModelClass)) (t : DataSource),
    (∀ p ∈ l, ModelClass.getProp p.2 "modelName" = JSVal.str p.1 ∧
       (lookupA p.1 schema.definitions).isSome = true) →
    t.isTransaction = true →
    (∀ m, (lookupA m t.models).isSome ↔ (lookupA m t.definitions).isSome) →
    (∀ m d, lookupA m t.definitions = some d → lookupA m schema.definitions = some d) →
    ∃ t' ev, copyAll schema selfVal l t = .ok (t', ev) ∧
      t'.name = t.name ∧ t'.settings = t.settings ∧ t'.connected = t.connected ∧
      t'.connecting = t.connecting ∧ t'.adapter = t.adapter ∧
      t'.isTransaction = t.isTransaction ∧
      (∀ m, (lookupA m t'.models).isSome ↔
         ((lookupA m t.models).isSome ∨ m ∈ l.map Prod.fst)) ∧
      (∀ m, (lookupA m t'.models).isSome ↔ (lookupA m t'.definitions).isSome) ∧
      (∀ m d, lookupA m t'.definitions = some d → lookupA m schema.definitions = some d) := by
  intro l
  induction l with
  | nil =>
    intro t hwf htx hls hsub
    exact ⟨t, [], rfl, rfl, rfl, rfl, rfl, rfl, rfl,
      fun m => by simp, hls, hsub⟩
  | cons p rest ih =>
    obtain ⟨n, M⟩ := p
    intro t hwf htx hls hsub
    obtain ⟨hname, hdef⟩ := hwf (n, M) (by simp)
    obtain ⟨md, hmd⟩ := Option.isSome_iff_exists.mp hdef
    obtain ⟨t1, S, hstep, f1, f2, f3, f4, f5, f6, hmodels1, hdefs1, hls1⟩ :=
      copyModel_tx_step schema t selfVal n M md hname htx hmd
    have hsub1 : ∀ m d, lookupA m t1.definitions = some d →
        lookupA m schema.definitions = some d := by
      intro m d hmd'
      rcases hdefs1 m d hmd' with h1 | h1
      · exact hsub m d h1
      · exact h1
    obtain ⟨t'', ev'', hrest, g1, g2, g3, g4, g5, g6, hmodels2, hls2, hsub2⟩ :=
      ih t1 (fun q hq => hwf q (List.mem_cons_of_mem _ hq)) (f6.trans htx)
        (hls1 hls) hsub1
    refine ⟨t'', [] ++ ev'', ?_, g1.trans f1, g2.trans f2, g3.trans f3,
      g4.trans f4, g5.trans f5, g6.trans f6, ?_, hls2, hsub2⟩
    · simp only [copyAll, hstep, hrest]
    · intro m
      rw [hmodels2 m, hmodels1 m]
      constructor
      · rintro ((hm | rfl) | hm)
        · exact Or.inl hm
        · exact Or.inr (by simp)
        · exact Or.inr (by simp [hm])
      · rintro (hm | hm)
        · exact Or.inl (Or.inl hm)
        · rcases (by simpa using hm : m = n ∨ m ∈ rest.map Prod.fst) with rfl | hm'
          · exact Or.inl (Or.inr rfl)
          · exact Or.inr hm'

theorem transaction_spec (schema : DataSource) (a : Adapter) (selfVal : JSVal)
    (hA : schema.adapter = some a) (hT : a.hasTransaction = true) (hWF : WF schema) :
    ∃ tx ev, DataSource.transaction schema selfVal = .ok (tx, ev) ∧
      tx.isTransaction = true ∧ tx.name = schema.name ∧ tx.settings = schema.settings ∧
      tx.connected = false ∧ tx.connecting = false ∧
      tx.adapter = some txAdapterStub ∧
      (∀ m, (lookupA m tx.models).isSome ↔ (lookupA m schema.models).isSome) ∧
      (∀ m, (lookupA m tx.models).isSome ↔ (lookupA m tx.definitions).isSome) ∧
      (∀ m d, lookupA m tx.definitions = some d → lookupA m schema.definitions = some d) := by
  obtain ⟨t', ev, hall, f1, f2, f3, f4, f5, f6, hmodels, hls, hsub⟩ :=
    copyAll_spec schema selfVal schema.models
      { name := schema.name, settings := schema.settings,
        connected := false, connecting := false,
        adapter := some txAdapterStub, isTransaction := true,
        models := [], definitions := [] }
      (fun p hp => ⟨(hWF p hp).1, (hWF p hp).2⟩) rfl
      (fun m => by simp) (fun m d hmd => by simp at hmd)
  refine ⟨t', ev, ?_, f6, f1, f2, f3, f4, f5, ?_, hls, hsub⟩
  · simp only [DataSource.transaction, hA, hT, if_true]
    exact hall
  · intro m
    rw [hmodels m]
    simp [lookupA_isSome_iff_mem_keys]

/-! ### Claim C6 — transaction() builds a fresh, isolated context -/

/-- C6: `transaction()` returns a fresh context with `isTransaction = true`,
`name`/`settings` copied from the parent, both lifecycle flags `false`, and
its own `models`/`definitions` mappings whose key set equals exactly the
parent's declared type names; defining a new type against the transactional
registry afterwards registers it there while the parent's mappings — which
the operation never touches — still lack it. -/
theorem C6_transaction_fresh_context (schema : DataSource) (a : Adapter) (selfVal : JSVal)
    (hA : schema.adapter = some a) (hT : a.hasTransaction = true) (hWF : WF schema) :
    ∃ tx ev, DataSource.transaction schema selfVal = .ok (tx, ev) ∧
      tx.isTransaction = true ∧ tx.name = schema.name ∧ tx.settings = schema.settings ∧
      tx.connected = false ∧ tx.connecting = false ∧
      (∀ m, (lookupA m tx.models).isSome ↔ (lookupA m schema.models).isSome) ∧
      (∀ m, (lookupA m tx.definitions).isSome ↔ (lookupA m schema.models).isSome) ∧
      (∀ cn props stgs h, cn ≠ "" → (lookupA cn schema.models).isSome = false →
        ∃ tx2 h2 cls ev2,
          DataSource.define tx h cn props stgs = .ok (tx2, h2, cls, ev2) ∧
          (lookupA cn tx2.models).isSome = true ∧
          (lookupA cn tx2.definitions).isSome = true ∧
          (lookupA cn schema.models).isSome = false) := by
  obtain ⟨tx, ev, hTx, hIsTx, hName, hSet, hCo, hCi, hAd, hmodels, hls, hsub⟩ :=
    transaction_spec schema a selfVal hA hT hWF
  refine ⟨tx, ev, hTx, hIsTx, hName, hSet, hCo, hCi, hmodels, ?_, ?_⟩
  · intro m
    rw [← hls m, hmodels m]
  · intro cn props stgs h hcn habs
    refine ⟨{ tx with
        models := setA cn ⟨[("modelName", hiddenProperty (.str cn))]⟩ tx.models,
        definitions := setA cn ⟨h.propsCells.length, h.settingsCells.length⟩ tx.definitions },
      ⟨h.propsCells ++ [props], h.settingsCells ++ [stgs]⟩,
      ⟨[("modelName", hiddenProperty (.str cn))]⟩,
      [.adapterDefine cn], ?_, by simp, by simp, habs⟩
    simp [DataSource.define, adlDefine, Heap.allocProps, Heap.allocSettings, hcn, hAd]

def c6a : Adapter := { txAdapterStub with hasTransaction := true }

def c6schema : DataSource :=
  { name := some "db", settings := .undefined, connected := true, connecting := false,
    adapter := some c6a, isTransaction := false,
    models := [("A", ⟨[("modelName", hiddenProperty (.str "A"))]⟩),
               ("B", ⟨[("modelName", hiddenProperty (.str "B"))]⟩)],
    definitions := [("A", ⟨0, 0⟩), ("B", ⟨1, 1⟩)] }

/-- C6, witness at a concrete parent with the two declared types of the
spec's scenario. -/
theorem C6_witness :
    c6schema.adapter = some c6a ∧ c6a.hasTransaction = true ∧ WF c6schema ∧
    (∃ tx ev, DataSource.transaction c6schema (.ctx 1) = .ok (tx, ev) ∧
      tx.isTransaction = true ∧ tx.name = c6schema.name ∧ tx.settings = c6schema.settings ∧
      tx.connected = false ∧ tx.connecting = false ∧
      (∀ m, (lookupA m tx.models).isSome ↔ (lookupA m c6schema.models).isSome) ∧
      (∀ m, (lookupA m tx.definitions).isSome ↔ (lookupA m c6schema.models).isSome) ∧
      (∀ cn props stgs h, cn ≠ "" → (lookupA cn c6schema.models).isSome = false →
        ∃ tx2 h2 cls ev2,
          DataSource.define tx h cn props stgs = .ok (tx2, h2, cls, ev2) ∧
          (lookupA cn tx2.models).isSome = true ∧
          (lookupA cn tx2.definitions).isSome = true ∧
          (lookupA cn c6schema.models).isSome = false)) :=
  ⟨rfl, rfl, by unfold WF; decide,
   C6_transaction_fresh_context c6schema c6a (.ctx 1) rfl rfl (by unfold WF; decide)⟩

/-! ### Claim C2 — the transaction's settings objects alias the parent's -/

def c2adapter : Adapter := { txAdapterStub with hasTransaction := true }

def c2scenario : Option (JSVal × JSVal) :=
  match DataSource.define (DataSource.setup (some "mem") .undefined (some c2adapter))
      Heap.empty "A" [] [("mode", .str "p")] with
  | .error _ => none
  | .ok (ds1, h1, _, _) =>
    match DataSource.transaction ds1 (.ctx 1) with
    | .error _ => none
    | .ok (tx, _) =>
      let before := getTypeSetting ds1 h1 "A" "mode"
      let h2 := setTypeSetting tx h1 "A" "mode" (.str "t")
      some (before, getTypeSetting ds1 h2 "A" "mode")

/-- C2, counterexample: declare type 'A' with settings `{mode: 'p'}`, open
a transaction, and write `mode = 't'` through the transaction's descriptor
for 'A'. Reading the parent's settings for 'A' afterwards yields 't', not
the original 'p': `copyModel` copies the `settings` object by reference,
so the transaction does NOT hold an independent copy, refuting the claim
at this concrete input. -/
theorem C2_counterexample : c2scenario = some (.str "p", .str "t") := by decide

/-- C2, amended: the transaction holds fresh TypeDescriptor records, but
their `properties`/`settings` objects are the parent's own objects (copied
by reference — §9's shallow-copy boundary): for every declared type, the
transaction's descriptor equals the parent's, so mutating the contents of
the transaction's settings object for a type is observed through the
parent registry afterwards. -/
theorem C2_transaction_settings_aliased (schema : DataSource) (a : Adapter) (selfVal : JSVal)
    (tx : DataSource) (ev : List Event) (n k : String) (md : TypeDescriptor)
    (h : Heap) (v : JSVal)
    (hA : schema.adapter = some a) (hT : a.hasTransaction = true) (hWF : WF schema)
    (hTx : DataSource.transaction schema selfVal = .ok (tx, ev))
    (hM : (lookupA n schema.models).isSome = true)
    (hD : lookupA n schema.definitions = some md)
    (hr : md.settingsRef < h.settingsCells.length) :
    lookupA n tx.definitions = some md ∧
    getTypeSetting schema (setTypeSetting tx h n k v) n k = v := by
  obtain ⟨tx', ev', hTx', _, _, _, _, _, _, hmodels, hls, hsub⟩ :=
    transaction_spec schema a selfVal hA hT hWF
  rw [hTx'] at hTx
  simp only [Except.ok.injEq, Prod.mk.injEq] at hTx
  obtain ⟨rfl, rfl⟩ := hTx
  have htxd : (lookupA n tx'.definitions).isSome = true := (hls n).mp ((hmodels n).mpr hM)
  obtain ⟨d, hd⟩ := Option.isSome_iff_exists.mp htxd
  have hds := hsub n d hd
  rw [hD] at hds
  obtain rfl : md = d := by cases hds; rfl
  refine ⟨hd, ?_⟩
  simp only [setTypeSetting, getTypeSetting, hd, hD]
  rw [Heap.getSettings_setSettings_self _ _ _ hr]
  simp [jsGet]

def c2wparent : DataSource :=
  { name := some "mem", settings := .undefined, connected := true, connecting := false,
    adapter := some c2adapter, isTransaction := false,
    models := [("A", ⟨[("modelName", hiddenProperty (.str "A"))]⟩)],
    definitions := [("A", ⟨0, 0⟩)] }

def c2wtx : DataSource :=
  { name := some "mem", settings := .undefined, connected := false, connecting := false,
    adapter := some txAdapterStub, isTransaction := true,
    models := [("A", ⟨[("schema", hiddenProperty (.ctx 1)),
      ("modelName", hiddenProperty (.str "A")),
      ("relations", hiddenProperty .undefined)]⟩)],
    definitions := [("A", ⟨0, 0⟩)] }

def c2wheap : Heap := ⟨[[]], [[("mode", .str "p")]]⟩

/-- C2, witness for the amended theorem at a concrete input. -/
theorem C2_witness :
    c2wparent.adapter = some c2adapter ∧ c2adapter.hasTransaction = true ∧
    WF c2wparent ∧
    DataSource.transaction c2wparent (.ctx 1) = .ok (c2wtx, []) ∧
    (lookupA "A" c2wparent.models).isSome = true ∧
    lookupA "A" c2wparent.definitions = some ⟨0, 0⟩ ∧
    (lookupA "A" c2wtx.definitions = some ⟨0, 0⟩ ∧
     getTypeSetting c2wparent (setTypeSetting c2wtx c2wheap "A" "mode" (.str "t")) "A" "mode"
       = .str "t") :=
  ⟨rfl, rfl, by unfold WF; decide, by decide, rfl, rfl,
   C2_transaction_settings_aliased c2wparent c2adapter (.ctx 1) c2wtx [] "A" "mode"
     ⟨0, 0⟩ c2wheap (.str "t") rfl rfl (by unfold WF; decide) (by decide) rfl rfl (by decide)⟩
